import Mathlib

/-!
Verification development for the ytdown media-download service
(`src/app.py`): a shallow embedding of its token ledger, job registry,
upload coordinator (name dedup/versioning, progress throttling) and the
result-retrieval route, with theorems about the behaviours the design
document describes.

Modelling conventions:
* `time.time()` and `datetime.now()` values are integer seconds (every
  threshold the code compares against is a whole number of seconds);
  byte counts in the upload progress callback stay rational since a
  percentage is a ratio.
* Python dicts (`tokens_db`, `downloads_db`) are association lists with
  unique keys maintained by `dbInsert`.
* Optional dict keys (for example `download_url` in a `downloads_db`
  entry) are `Option` fields.
* The float comparison `size_diff <= file_size * 0.01` is embedded
  exactly over the integers as `100 * size_diff ≤ file_size`.
-/

namespace YTDown

/-! ## Association-list operations standing in for Python dicts -/

/-- Lookup of a key in an association list (`k in d` / `d[k]`). -/
def dbLookup {α : Type} : List (String × α) → String → Option α
  | [], _ => none
  | p :: rest, k => if p.1 = k then some p.2 else dbLookup rest k

/-- Insertion `d[k] = v`: any previous binding of `k` is replaced. -/
def dbInsert {α : Type} (db : List (String × α)) (k : String) (v : α) :
    List (String × α) :=
  db.filter (fun p => p.1 ≠ k) ++ [(k, v)]

/-- Deletion `del d[k]`. -/
def dbErase {α : Type} (db : List (String × α)) (k : String) :
    List (String × α) :=
  db.filter (fun p => p.1 ≠ k)

/-! ## Data model -/

/-- One entry of `tokens_db`: the dict with keys `created_at`, `used`, `ip`. -/
structure TokenData where
  created_at : ℤ
  used : Bool
  ip : String
deriving Repr, DecidableEq

/-- One entry of `downloads_db`.  The success path of `upload_to_r2` stores
`download_url`/`display_filename`/`title`/`timestamp`; the fallback path
stores `filename`/`display_filename`/`title`/`timestamp`/`fallback=True`.
Keys that a path does not write are `none`/`false` here. -/
structure DownloadData where
  download_url : Option String
  filename : Option String
  display_filename : String
  title : String
  timestamp : ℤ
  fallback : Bool
deriving Repr, DecidableEq

abbrev TokensDb := List (String × TokenData)

abbrev DownloadsDb := List (String × DownloadData)

/-- The mutable module-level state of the service. -/
structure ServerState where
  tokens_db : TokensDb
  downloads_db : DownloadsDb
deriving Repr, DecidableEq

/-! ## Token ledger and job registry (`app.py` lines 165-198, 389-413) -/

/-- `cleanup_expired_tokens`: delete every token older than 300 seconds. -/
def cleanup_expired_tokens (now : ℤ) (db : TokensDb) : TokensDb :=
  db.filter (fun p => ¬ now - p.2.created_at > 300)

/-- `cleanup_old_downloads`: delete every registry entry whose creation
timestamp is more than 2 hours (7200 seconds) old. -/
def cleanup_old_downloads (now : ℤ) (db : DownloadsDb) : DownloadsDb :=
  db.filter (fun p => ¬ now - p.2.timestamp > 7200)

/-- `validate_token`: false when the token is missing/absent, marked used,
or older than 300 seconds; the expired case also deletes the entry.
Returns the verdict together with the (possibly updated) `tokens_db`. -/
def validate_token (now : ℤ) (db : TokensDb) (token : Option String) :
    Bool × TokensDb :=
  match token with
  | none => (false, db)
  | some t =>
    if t = "" then (false, db)
    else match dbLookup db t with
    | none => (false, db)
    | some td =>
      if td.used then (false, db)
      else if now - td.created_at > 300 then (false, dbErase db t)
      else (true, db)

/-- Response of `/api/request_token`. -/
inductive TokenResponse where
  | rateLimited
  | issued (token : String)
deriving Repr, DecidableEq

/-- `request_token`: run both cleanup sweeps, count the live tokens of
this client issued within the trailing 3600 seconds, reject with 429 when the
count is already ≥ 10, otherwise record and return a fresh token.
`newTok` stands for the value of `generate_token()`. -/
def request_token (now : ℤ) (client_ip : String) (newTok : String)
    (s : ServerState) : TokenResponse × ServerState :=
  let tdb := cleanup_expired_tokens now s.tokens_db
  let ddb := cleanup_old_downloads now s.downloads_db
  let ip_tokens := tdb.filter
    (fun p => p.2.ip = client_ip ∧ now - p.2.created_at < 3600)
  if 10 ≤ ip_tokens.length then (.rateLimited, ⟨tdb, ddb⟩)
  else (.issued newTok,
        ⟨dbInsert tdb newTok ⟨now, false, client_ip⟩, ddb⟩)

/-- Response of `/api/download/<download_id>`. -/
inductive FetchResponse where
  | unauthorized
  | notFound (msg : String)
  | ok (download_url : String) (filename : String)
deriving Repr, DecidableEq

/-- `download_file` (the `/api/download/<id>` route, behind
`require_token`): 401 on an invalid token; 404 `Download not found` when
the id is absent; the stored URL when the entry carries one; otherwise
404 `Download not available`.  No timestamp is consulted here. -/
def download_file (now : ℤ) (token : Option String) (download_id : String)
    (s : ServerState) : FetchResponse × ServerState :=
  match validate_token now s.tokens_db token with
  | (false, tdb) => (.unauthorized, { s with tokens_db := tdb })
  | (true, tdb) =>
    let s1 : ServerState := { s with tokens_db := tdb }
    match dbLookup s1.downloads_db download_id with
    | none => (.notFound "Download not found", s1)
    | some info =>
      match info.download_url with
      | some u => (.ok u info.display_filename, s1)
      | none => (.notFound "Download not available", s1)

/-! ## Upload coordinator (`upload_to_r2_direct`, `app.py` lines 213-298) -/

/-- The `str.replace` of Python specialised to the single-character patterns
the source uses (a kernel-reducible map over the characters). -/
def replaceChar (s : String) (a b : Char) : String :=
  String.mk (s.toList.map (fun c => if c = a then b else c))

/-- The filename sanitization of `upload_to_r2_direct`: replace spaces by
underscores and pipes by dashes, keep only alphanumerics plus
`._-[]() `, replace spaces by underscores again.  (the `isalnum` of Python is
Unicode-aware; ASCII alphanumerics suffice for this development.) -/
def sanitize (displayName : String) : String :=
  let s1 := replaceChar (replaceChar displayName ' ' '_') '|' '-'
  let s2 := String.mk (s1.toList.filter
    (fun c => c.isAlphanum ∨ c ∈ ['.', '_', '-', '[', ']', '(', ')', ' ']))
  replaceChar s2 ' ' '_'

/-- The `rsplit` into base and extension at the last dot, as used for versioning: the part before the last
dot, and the extension including the dot (empty when there is no dot). -/
def splitExtAux : List Char → Option (List Char × List Char)
  | [] => none
  | c :: rest =>
    match splitExtAux rest with
    | some (b, e) => some (c :: b, e)
    | none => if c = '.' then some ([], c :: rest) else none

/-- Base name and extension of a stored-object name. -/
def splitExt (name : String) : String × String :=
  match splitExtAux name.toList with
  | some (b, e) => (String.mk b, String.mk e)
  | none => (name, "")

/-- The stored objects visible to the duplicate check: key and byte size
(the `Contents` entries of the bucket listing). -/
abbrev Contents := List (String × Nat)

/-- The `while True` versioning loop: try `<base>_v<N><ext>` for `N`
starting at 1, stop at the first name not present among the listed
objects; after `N` passes 10, fall back to `<base>_<int(time)><ext>`.
The loop body runs at most 10 times (the version counter is capped), so
it is embedded with a structural fuel counter; the fuel-exhausted branch
returns the same time-suffixed fallback and is unreachable from
`versionStart` (see `versionLoop_fuel_irrelevant`). -/
def versionLoop (contents : Contents) (base ext : String) (nowInt : Nat) :
    Nat → Nat → String
  | _, 0 => base ++ "_" ++ toString nowInt ++ ext
  | version, fuel + 1 =>
    let versioned := base ++ "_v" ++ toString version ++ ext
    if contents.any (fun o => o.1 = versioned) then
      if version + 1 > 10 then base ++ "_" ++ toString nowInt ++ ext
      else versionLoop contents base ext nowInt (version + 1) fuel
    else versioned

/-- Entry into the versioning loop: `version = 1`, enough fuel for the
at most 10 iterations the cap allows. -/
def versionStart (contents : Contents) (base ext : String) (nowInt : Nat) :
    String :=
  versionLoop contents base ext nowInt 1 10

/-- The scan over the `Contents` entries in `upload_to_r2_direct`.
The first argument is the full listing (the generator inside `any`
re-scans it); the list being recursed on is the remaining suffix, and
`current` is the running value of `unique_filename`.  On an exact key
match with byte size within 1% of the local size the function returns
the existing key with `duplicate = true`; a match with a larger size
difference reruns the versioning loop on the current name. -/
def chooseName (allContents : Contents) (fileSize : Nat) (nowInt : Nat) :
    Contents → String → String × Bool
  | [], current => (current, false)
  | obj :: rest, current =>
    if obj.1 = current then
      if 100 * ((obj.2 : ℤ) - (fileSize : ℤ)).natAbs ≤ fileSize then
        (obj.1, true)
      else
        let be := splitExt current
        chooseName allContents fileSize nowInt rest
          (versionStart allContents be.1 be.2 nowInt)
    else chooseName allContents fileSize nowInt rest current

/-- Result dictionary of `upload_to_r2_direct`; `duplicate = true` means
the physical transfer (`s3_client.upload_file`) was skipped and the
URL of the existing object returned. -/
structure UploadResult where
  download_url : String
  filename : String
  duplicate : Bool
deriving Repr, DecidableEq

/-- Retrieval URL for a stored name: the public base, `/download/`, key. -/
def mkUrl (pubBase : String) (name : String) : String :=
  pubBase ++ "/download/" ++ name

/-- The name-selection and dedup behaviour of `upload_to_r2_direct`
(its transfer step is environmental and not modelled here): sanitize the
display name, run the duplicate/versioning scan over the bucket listing,
and return the retrieval URL for the chosen key. -/
def upload_to_r2_direct (pubBase : String) (contents : Contents)
    (fileSize : Nat) (displayName : String) (nowInt : Nat) : UploadResult :=
  let clean := sanitize displayName
  let nd := chooseName contents fileSize nowInt contents clean
  { download_url := mkUrl pubBase nd.1, filename := nd.1, duplicate := nd.2 }

/-! ## Upload progress throttling (`progress_callback`, lines 261-278) -/

/-- Python falsiness of an optional string value. -/
def isFalsy : Option String → Bool
  | none => true
  | some s => s = ""

/-- The closed-over cells `last_emit_time[0]` and `last_percent[0]`. -/
structure PCState where
  last_emit_time : ℚ
  last_percent : ℚ
deriving Repr, DecidableEq

/-- The throttling condition of `progress_callback`:
`progress - last_percent >= 1.0 or current_time - last_emit_time >= 1.0`
with `progress = bytes_transferred / file_size * 100`. -/
def pcCond (fileSize : ℚ) (s : PCState) (bytes now : ℚ) : Bool :=
  (1 ≤ bytes / fileSize * 100 - s.last_percent) ∨
    (1 ≤ now - s.last_emit_time)

/-- One call of `progress_callback`: when the throttling condition holds
the state cells are updated and, if the session id is truthy (present
and non-empty), the `upload_progress` event is emitted (the returned
Bool).  The cells update whenever the condition holds, session or not. -/
def progress_callback (fileSize : ℚ) (sessionId : Option String)
    (s : PCState) (bytes now : ℚ) : Bool × PCState :=
  if pcCond fileSize s bytes now then
    (!(isFalsy sessionId), ⟨now, bytes / fileSize * 100⟩)
  else (false, s)

/-- Emission trace of a sequence of `progress_callback` invocations, each
given as `(bytes_transferred, current_time)`. -/
def pcRun (fileSize : ℚ) (sessionId : Option String) (s : PCState) :
    List (ℚ × ℚ) → List Bool
  | [] => []
  | c :: rest =>
    let es := progress_callback fileSize sessionId s c.1 c.2
    es.1 :: pcRun fileSize sessionId es.2 rest

/-- State of the cells after a sequence of invocations. -/
def pcStateAfter (fileSize : ℚ) (sessionId : Option String) (s : PCState) :
    List (ℚ × ℚ) → PCState
  | [] => s
  | c :: rest =>
    pcStateAfter fileSize sessionId
      (progress_callback fileSize sessionId s c.1 c.2).2 rest

/-- Reference semantics of "since the last emission": replay a call list
against its emission trace, keeping the time and percent of the most
recent emitted call (the initial state when none was emitted yet). -/
def emitRefState (fileSize : ℚ) (s : PCState) :
    List Bool → List (ℚ × ℚ) → PCState
  | e :: es, c :: cs =>
    emitRefState fileSize (if e then ⟨c.2, c.1 / fileSize * 100⟩ else s) es cs
  | _, _ => s

/-! ## Job submission and the background upload (`handle_download`,
`upload_to_r2`, lines 484-610) -/

/-- The payload of a `download_video` socket message.  `data.get(...)`
returns `None` for a missing key; Python also treats the empty string as
falsy in `not all([...])` and `not token`. -/
structure DownloadRequest where
  token : Option String
  url : Option String
  video_code : Option String
  audio_code : Option String
  session_id : Option String
deriving Repr, DecidableEq

/-- Mark the entry of `t` used, as done on the accepted-submission path. -/
def markUsed (db : TokensDb) (t : String) : TokensDb :=
  db.map (fun p => if p.1 = t then (p.1, { p.2 with used := true }) else p)

/-- Synchronous outcome of the front half of `handle_download`, before
the extraction engine is invoked. -/
inductive SubmitOutcome where
  | errorEvent (msg : String)
  | accepted (download_id : String)
deriving Repr, DecidableEq

/-- The front half of `handle_download`: validate the token (rejecting
with a `download_error` event), mark it used, then check that `url`,
`video_code` and `audio_code` are all present, rejecting with a
`download_error` event otherwise; on success a fresh job id (`newId`,
standing for `str(uuid.uuid4())`) is accepted.  The token is marked used
before the parameter check. -/
def handle_download (now : ℤ) (req : DownloadRequest) (newId : String)
    (s : ServerState) : SubmitOutcome × ServerState :=
  match validate_token now s.tokens_db req.token with
  | (false, tdb) =>
    (.errorEvent "Invalid or expired token", { s with tokens_db := tdb })
  | (true, tdb) =>
    let tdb2 := match req.token with
      | some t => if (dbLookup tdb t).isSome then markUsed tdb t else tdb
      | none => tdb
    if isFalsy req.url ∨ isFalsy req.video_code ∨ isFalsy req.audio_code then
      (.errorEvent "Missing required parameters",
       { s with tokens_db := tdb2 })
    else (.accepted newId, { s with tokens_db := tdb2 })

/-- A `download_complete` socket event.  The success path carries
`download_url` and no `fallback` key; the fallback path carries
`fallback: True` and no `download_url` key. -/
structure CompleteEvent where
  session_id : Option String
  download_id : String
  filename : String
  download_url : Option String
  fallback : Bool
deriving Repr, DecidableEq

/-- The body of the background `upload_to_r2` thread, applied to the
outcome of `upload_to_r2_direct` (`Except.error` when the transfer
raised).  On success the registry entry records the retrieval URL; on
failure the job still completes: a fallback entry (local file name, no
retrieval URL) is recorded and the completion event carries
`fallback = true` and no URL.  Neither path emits a `download_error`. -/
def upload_to_r2 (uploadResult : Except String UploadResult)
    (download_id actual_file display_filename title : String)
    (session_id : Option String) (now : ℤ) (ddb : DownloadsDb) :
    DownloadsDb × CompleteEvent :=
  match uploadResult with
  | .ok result =>
    (dbInsert ddb download_id
       ⟨some result.download_url, none, display_filename, title, now, false⟩,
     ⟨session_id, download_id, display_filename,
      some result.download_url, false⟩)
  | .error _ =>
    (dbInsert ddb download_id
       ⟨none, some actual_file, display_filename, title, now, true⟩,
     ⟨session_id, download_id, display_filename, none, true⟩)

/-! ## Whole-service steps, for invariants over operation sequences -/

/-- One externally triggered state transition of the service. -/
inductive Op where
  | reqToken (now : ℤ) (ip : String) (newTok : String)
  | submit (now : ℤ) (req : DownloadRequest) (newId : String)
  | fetch (now : ℤ) (token : Option String) (id : String)
  | uploadDone (res : Except String UploadResult)
      (download_id actual_file display_filename title : String)
      (session_id : Option String) (now : ℤ)

/-- Effect of one operation on the server state. -/
def stepOp (s : ServerState) : Op → ServerState
  | .reqToken now ip newTok => (request_token now ip newTok s).2
  | .submit now req newId => (handle_download now req newId s).2
  | .fetch now token id => (download_file now token id s).2
  | .uploadDone res did file disp title sid now =>
    { s with downloads_db :=
        (upload_to_r2 res did file disp title sid now s.downloads_db).1 }

/-- Effect of a sequence of operations. -/
def runOps (s : ServerState) : List Op → ServerState
  | [] => s
  | op :: rest => runOps (stepOp s op) rest

/-- An operation avoids the token string `t` when it cannot re-issue `t`
(freshly generated tokens are high-entropy and never collide with an
existing one). -/
def avoidsToken (t : String) : Op → Prop
  | .reqToken _ _ newTok => newTok ≠ t
  | _ => True

/-! ## Predicates and concrete scenarios used by the theorems -/

/-- All bindings of `t` in a token store are marked used.  This is
precisely the state a token is left in once it has been consumed. -/
def allUsed (db : TokensDb) (t : String) : Prop :=
  ∀ p ∈ db, p.1 = t → p.2.used = true

/-- One token-issuance call of a trace, accumulating responses. -/
def issueStep (ip : String) (acc : List TokenResponse × ServerState)
    (p : ℤ × String) : List TokenResponse × ServerState :=
  let r := request_token p.1 ip p.2 acc.2
  (acc.1 ++ [r.1], r.2)

/-- Eleven issuance requests by one client spaced 350 seconds apart:
times 0, 350, ..., 3500, all inside one trailing 3600-second window. -/
def spacedCalls : List (ℤ × String) :=
  [(0, "t0"), (350, "t1"), (700, "t2"), (1050, "t3"), (1400, "t4"),
   (1750, "t5"), (2100, "t6"), (2450, "t7"), (2800, "t8"), (3150, "t9"),
   (3500, "t10")]

/-- The responses to `spacedCalls`, starting from the empty service. -/
def spacedTrace : List TokenResponse :=
  (spacedCalls.foldl (issueStep "c") ([], ⟨[], []⟩)).1

/-- Eleven issuance requests by one client one second apart. -/
def rapidCalls : List (ℤ × String) :=
  [(0, "t0"), (1, "t1"), (2, "t2"), (3, "t3"), (4, "t4"), (5, "t5"),
   (6, "t6"), (7, "t7"), (8, "t8"), (9, "t9"), (10, "t10")]

/-- The responses to `rapidCalls`, starting from the empty service. -/
def rapidTrace : List TokenResponse :=
  (rapidCalls.foldl (issueStep "c") ([], ⟨[], []⟩)).1

/-- The state reached by: token issued at time 0, job `job1` recorded at
time 0, second token `tokB` issued at time 7199 (that issuance runs both
sweeps; the job, then 7199 < 7200 seconds old, survives it). -/
def lateLookupState : ServerState :=
  runOps ⟨[], []⟩
    [.reqToken 0 "c" "tokA",
     .uploadDone (.ok ⟨"B/download/f.mp4", "f.mp4", false⟩) "job1"
       "file.mp4" "disp.mp4" "title" (some "sess") 0,
     .reqToken 7199 "c" "tokB"]

/-- Bucket listing for the versioning scenario: the base object plus the
first `n` versioned names, every size differing from the 5000-byte local
file by more than 1%. -/
def versionedContents (n : Nat) : Contents :=
  ("f.mp4", 1000) :: (List.range n).map
    (fun i => ("f_v" ++ toString (i + 1) ++ ".mp4", 2000))

/-! ## Helper lemmas about the dict model -/

theorem dbLookup_mem {α : Type} {db : List (String × α)} {k : String}
    {v : α} (h : dbLookup db k = some v) : (k, v) ∈ db := by
  induction db with
  | nil => simp [dbLookup] at h
  | cons hd tl ih =>
    by_cases hk : hd.1 = k
    · simp only [dbLookup, hk, if_pos] at h
      cases hd
      simp_all
    · simp only [dbLookup, hk, if_neg, if_false] at h
      exact List.mem_cons_of_mem _ (ih h)

theorem dbLookup_dbInsert_self {α : Type} (db : List (String × α))
    (k : String) (v : α) : dbLookup (dbInsert db k v) k = some v := by
  unfold dbInsert
  induction db with
  | nil => simp [dbLookup]
  | cons hd tl ih =>
    by_cases hk : hd.1 = k
    · simpa [hk] using ih
    · simpa [List.filter_cons, hk, dbLookup] using ih

theorem dbLookup_eq_none {α : Type} {db : List (String × α)} {k : String}
    (h : ∀ p ∈ db, p.1 ≠ k) : dbLookup db k = none := by
  induction db with
  | nil => rfl
  | cons hd tl ih =>
    have h1 : hd.1 ≠ k := h hd (List.mem_cons_self hd tl)
    simp only [dbLookup, h1, if_neg, if_false]
    exact ih (fun p hp => h p (List.mem_cons_of_mem _ hp))

theorem allUsed_filter {db : TokensDb} {t : String}
    (q : String × TokenData → Bool) (h : allUsed db t) :
    allUsed (db.filter q) t :=
  fun p hp => h p (List.mem_of_mem_filter hp)

theorem allUsed_dbInsert_ne {db : TokensDb} {t : String} (k : String)
    (v : TokenData) (hk : k ≠ t) (h : allUsed db t) :
    allUsed (dbInsert db k v) t := by
  intro p hp hpt
  rcases List.mem_append.1 hp with hp1 | hp1
  · exact allUsed_filter _ h p hp1 hpt
  · rcases List.mem_singleton.1 hp1 with rfl
    exact absurd hpt hk

theorem allUsed_markUsed_self (db : TokensDb) (t : String) :
    allUsed (markUsed db t) t := by
  intro p hp hpt
  rcases List.mem_map.1 hp with ⟨q, hq, rfl⟩
  by_cases hqt : q.1 = t
  · simp [hqt]
  · rw [if_neg hqt] at hpt
    exact absurd hpt hqt

theorem allUsed_markUsed {db : TokensDb} {t : String} (u : String)
    (h : allUsed db t) : allUsed (markUsed db u) t := by
  intro p hp hpt
  rcases List.mem_map.1 hp with ⟨q, hq, rfl⟩
  by_cases hqu : q.1 = u
  · simp [hqu]
  · rw [if_neg hqu] at hpt ⊢
    exact h q hq hpt

theorem allUsed_validate_snd {db : TokensDb} {t : String} (now : ℤ)
    (tok : Option String) (h : allUsed db t) :
    allUsed (validate_token now db tok).2 t := by
  unfold validate_token
  match tok with
  | none => exact h
  | some t2 =>
    by_cases h2 : t2 = ""
    · simpa [h2] using h
    · simp only [h2, if_neg, if_false]
      cases hlk : dbLookup db t2 with
      | none => exact h
      | some td =>
        by_cases hu : td.used
        · simpa [hu] using h
        · by_cases hage : now - td.created_at > 300
          · simpa [hu, hage] using allUsed_filter _ h
          · simpa [hu, hage] using h

theorem validate_false_of_allUsed {db : TokensDb} {t : String} (now : ℤ)
    (h : allUsed db t) : (validate_token now db (some t)).1 = false := by
  unfold validate_token
  by_cases h2 : t = ""
  · simp [h2]
  · simp only [h2, if_neg, if_false]
    cases hlk : dbLookup db t with
    | none => rfl
    | some td =>
      have : td.used = true := h (t, td) (dbLookup_mem hlk) rfl
      simp [this]

theorem validate_token_eq_true {now : ℤ} {db : TokensDb}
    {tok : Option String} (h : (validate_token now db tok).1 = true) :
    validate_token now db tok = (true, db) ∧
      ∃ t td, tok = some t ∧ t ≠ "" ∧ dbLookup db t = some td ∧
        td.used = false ∧ ¬ now - td.created_at > 300 := by
  match tok with
  | none => simp [validate_token] at h
  | some t =>
    by_cases h2 : t = ""
    · simp [validate_token, h2] at h
    · cases hlk : dbLookup db t with
      | none => simp [validate_token, h2, hlk] at h
      | some td =>
        by_cases hu : td.used
        · simp [validate_token, h2, hlk, hu] at h
        · by_cases hage : now - td.created_at > 300
          · simp [validate_token, h2, hlk, hu, hage] at h
          · exact ⟨by simp [validate_token, h2, hlk, hu, hage],
              t, td, rfl, h2, hlk, by simpa using hu, hage⟩

theorem request_token_tokens (now : ℤ) (ip tok : String)
    (s : ServerState) :
    (request_token now ip tok s).2.tokens_db =
        cleanup_expired_tokens now s.tokens_db ∨
      (request_token now ip tok s).2.tokens_db =
        dbInsert (cleanup_expired_tokens now s.tokens_db) tok
          ⟨now, false, ip⟩ := by
  simp only [request_token]
  split
  · exact Or.inl rfl
  · exact Or.inr rfl

theorem handle_download_tokens_of_valid {now : ℤ} {req : DownloadRequest}
    {newId : String} {s : ServerState} {t : String}
    (htok : req.token = some t)
    (hval : (validate_token now s.tokens_db req.token).1 = true) :
    ((handle_download now req newId s).2).tokens_db =
      markUsed s.tokens_db t := by
  obtain ⟨heq, t2, td, htok2, -, hlk, -, -⟩ := validate_token_eq_true hval
  rw [htok] at htok2
  obtain rfl : t = t2 := by injection htok2
  rw [htok] at heq
  simp only [handle_download, htok, heq, hlk, Option.isSome_some, if_pos]
  split <;> rfl

theorem allUsed_stepOp {s : ServerState} {t : String} {op : Op}
    (hav : avoidsToken t op) (h : allUsed s.tokens_db t) :
    allUsed (stepOp s op).tokens_db t := by
  cases op with
  | reqToken now ip newTok =>
    rcases request_token_tokens now ip newTok s with he | he
    · rw [stepOp, he]
      exact allUsed_filter _ h
    · rw [stepOp, he]
      exact allUsed_dbInsert_ne _ _ hav (allUsed_filter _ h)
  | submit now req newId =>
    have h2 := allUsed_validate_snd now req.token h
    cases hv : validate_token now s.tokens_db req.token with
    | mk b tdb =>
      rw [hv] at h2
      cases b
      · simpa only [stepOp, handle_download, hv] using h2
      · simp only [stepOp, handle_download, hv]
        cases req.token with
        | none => split <;> exact h2
        | some u =>
          cases hlk : (dbLookup tdb u).isSome
          · simp only [hlk, Bool.false_eq_true, if_false]
            split <;> exact h2
          · simp only [hlk, if_pos]
            split <;> exact allUsed_markUsed u h2
  | fetch now token id =>
    have h2 := allUsed_validate_snd now token h
    cases hv : validate_token now s.tokens_db token with
    | mk b tdb =>
      rw [hv] at h2
      cases b
      · simpa only [stepOp, download_file, hv] using h2
      · simp only [stepOp, download_file, hv]
        split <;> first
          | exact h2
          | (split <;> exact h2)
  | uploadDone res did file disp title sid now =>
    exact h

theorem allUsed_runOps {s : ServerState} {t : String} {ops : List Op}
    (hav : ∀ op ∈ ops, avoidsToken t op) (h : allUsed s.tokens_db t) :
    allUsed (runOps s ops).tokens_db t := by
  induction ops generalizing s with
  | nil => exact h
  | cons op rest ih =>
    exact ih (fun o ho => hav o (List.mem_cons_of_mem _ ho))
      (allUsed_stepOp (hav op (List.mem_cons_self _ _)) h)

/-- Claim C3: a token consumed once (marked used when a job submission
presented it and the token validated) never validates again: after the
submission that consumed it, every later `validate_token` call on that
token returns false, whatever further operations the service performs
(provided the high-entropy generator never re-issues the same string). -/
theorem consumed_token_never_validates_again (now later : ℤ)
    (req : DownloadRequest) (newId : String) (s : ServerState) (t : String)
    (ops : List Op)
    (htok : req.token = some t)
    (hval : (validate_token now s.tokens_db req.token).1 = true)
    (hav : ∀ op ∈ ops, avoidsToken t op) :
    (validate_token later
      (runOps ((handle_download now req newId s).2) ops).tokens_db
      (some t)).1 = false := by
  apply validate_false_of_allUsed
  apply allUsed_runOps hav
  rw [handle_download_tokens_of_valid htok hval]
  exact allUsed_markUsed_self _ _

theorem consumed_token_never_validates_again_witness :
    (validate_token 7
      (runOps ((handle_download 1
          ⟨some "tk", some "u", some "v", some "a", some "sess"⟩ "job1"
          ⟨[("tk", ⟨0, false, "c"⟩)], []⟩).2)
        [.reqToken 5 "c" "fresh", .fetch 6 (some "fresh") "job1"]).tokens_db
      (some "tk")).1 = false := by
  apply consumed_token_never_validates_again 1 7 _ "job1" _ "tk" _ rfl
    (by decide)
  intro op hop
  fin_cases hop
  · exact (by decide : ("fresh" : String) ≠ "tk")
  · exact trivial

/-- Claim C4: `validate_token` returns false when the token is absent,
already marked used, or older than 300 seconds — in particular an
expired token fails validation even if it was never consumed — and in
the expired case the entry is deleted from the store as a side effect. -/
theorem validate_token_false_cases (now : ℤ) (db : TokensDb) (t : String)
    (hne : t ≠ "") :
    validate_token now db none = (false, db) ∧
    (dbLookup db t = none → validate_token now db (some t) = (false, db)) ∧
    (∀ td, dbLookup db t = some td → td.used = true →
      validate_token now db (some t) = (false, db)) ∧
    (∀ td, dbLookup db t = some td → td.used = false →
      now - td.created_at > 300 →
      validate_token now db (some t) = (false, dbErase db t)) := by
  refine ⟨rfl, ?_, ?_, ?_⟩
  · intro h
    simp [validate_token, hne, h]
  · intro td h hu
    simp [validate_token, hne, h, hu]
  · intro td h hu hage
    simp [validate_token, hne, h, hu, hage]

theorem validate_token_false_cases_witness :
    validate_token 301 [("tok", ⟨0, false, "c"⟩)] (some "tok") =
      (false, []) := by
  have h := (validate_token_false_cases 301 [("tok", ⟨0, false, "c"⟩)]
    "tok" (by decide)).2.2.2 ⟨0, false, "c"⟩ rfl rfl (by decide)
  exact h.trans (by decide)

/-- Claim C7: when the download and merge succeeded but the upload to
object storage fails, the job does not transition to a failed state:
the background thread still records a registry entry carrying the local
file name and no retrieval URL, and emits a completion event (a
`download_complete`, never a `download_error`) with the fallback flag
set and no retrieval URL. -/
theorem upload_failure_completes_with_fallback (e : String)
    (did actual disp title : String) (sid : Option String) (now : ℤ)
    (ddb : DownloadsDb) :
    dbLookup (upload_to_r2 (.error e) did actual disp title sid
        now ddb).1 did =
      some ⟨none, some actual, disp, title, now, true⟩ ∧
    (upload_to_r2 (.error e) did actual disp title sid now ddb).2 =
      ⟨sid, did, disp, none, true⟩ := by
  constructor
  · exact dbLookup_dbInsert_self _ _ _
  · rfl

/-- Claim C9: a job submission presenting a valid token marks the token
used before the `url`/`video_code`/`audio_code` parameters are checked:
a submission rejected with the missing-parameters error has nevertheless
consumed the token, and the same token validates as false from then on. -/
theorem token_consumed_before_param_check (now : ℤ)
    (req : DownloadRequest) (newId : String) (s : ServerState) (t : String)
    (htok : req.token = some t)
    (hval : (validate_token now s.tokens_db req.token).1 = true)
    (hmiss : isFalsy req.url ∨ isFalsy req.video_code ∨
      isFalsy req.audio_code) :
    (handle_download now req newId s).1 =
        .errorEvent "Missing required parameters" ∧
      ((handle_download now req newId s).2).tokens_db =
        markUsed s.tokens_db t ∧
      ∀ later, (validate_token later
        ((handle_download now req newId s).2).tokens_db (some t)).1 =
        false := by
  obtain ⟨heq, t2, td, htok2, -, hlk, -, -⟩ := validate_token_eq_true hval
  rw [htok] at htok2
  obtain rfl : t = t2 := by injection htok2
  rw [htok] at heq
  refine ⟨?_, handle_download_tokens_of_valid htok hval, ?_⟩
  · simp only [handle_download, htok, heq, hlk, Option.isSome_some,
      if_pos, hmiss, if_true]
  · intro later
    apply validate_false_of_allUsed
    rw [handle_download_tokens_of_valid htok hval]
    exact allUsed_markUsed_self _ _

theorem token_consumed_before_param_check_witness :
    (handle_download 1 ⟨some "tk", none, some "v", some "a", some "sess"⟩
        "j" ⟨[("tk", ⟨0, false, "c"⟩)], []⟩).1 =
      .errorEvent "Missing required parameters" ∧
    (validate_token 2 ((handle_download 1
        ⟨some "tk", none, some "v", some "a", some "sess"⟩
        "j" ⟨[("tk", ⟨0, false, "c"⟩)], []⟩).2).tokens_db
      (some "tk")).1 = false := by
  have h := token_consumed_before_param_check 1
    ⟨some "tk", none, some "v", some "a", some "sess"⟩ "j"
    ⟨[("tk", ⟨0, false, "c"⟩)], []⟩ "tk" rfl (by decide)
    (Or.inl (by decide))
  exact ⟨h.1, h.2.2 2⟩

/-- Claim C10: a registry entry written by the fallback path carries no
retrieval URL, and result retrieval for it — even with a valid token —
returns the 404 `Download not available`; retrieval succeeds exactly for
entries that carry a retrieval URL. -/
theorem fallback_entries_not_retrievable (now : ℤ) (token : Option String)
    (s : ServerState) (did : String)
    (hval : (validate_token now s.tokens_db token).1 = true) :
    (∀ info, dbLookup s.downloads_db did = some info →
      info.download_url = none →
      (download_file now token did s).1 =
        .notFound "Download not available") ∧
    (∀ info u, dbLookup s.downloads_db did = some info →
      info.download_url = some u →
      (download_file now token did s).1 = .ok u info.display_filename) ∧
    (∀ e actual disp title sid tnow ddb0,
      s.downloads_db =
        (upload_to_r2 (.error e) did actual disp title sid tnow ddb0).1 →
      (download_file now token did s).1 =
        .notFound "Download not available") := by
  obtain ⟨heq, -⟩ := validate_token_eq_true hval
  refine ⟨?_, ?_, ?_⟩
  · intro info hlk hurl
    simp only [download_file, heq, hlk, hurl]
  · intro info u hlk hurl
    simp only [download_file, heq, hlk, hurl]
  · intro e actual disp title sid tnow ddb0 hdb
    have hlk : dbLookup s.downloads_db did =
        some ⟨none, some actual, disp, title, tnow, true⟩ := by
      rw [hdb]
      exact dbLookup_dbInsert_self _ _ _
    simp only [download_file, heq, hlk]

theorem fallback_entries_not_retrievable_witness :
    (download_file 1 (some "tk") "j1"
      ⟨[("tk", ⟨0, false, "c"⟩)],
       (upload_to_r2 (.error "boom") "j1" "file.mp4" "disp" "ti"
         (some "sess") 0 []).1⟩).1 =
      .notFound "Download not available" := by
  have h := fallback_entries_not_retrievable 1 (some "tk")
    ⟨[("tk", ⟨0, false, "c"⟩)],
     (upload_to_r2 (.error "boom") "j1" "file.mp4" "disp" "ti"
       (some "sess") 0 []).1⟩ "j1" (by decide)
  exact h.2.2 "boom" "file.mp4" "disp" "ti" (some "sess") 0 [] rfl

/-! ## Rate-limit window (claim C1) -/

/-- Claim C1 counterexample: eleven issuance requests by the same client
at times 0, 350, ..., 3500 — the 11th coming 3500 < 3600 seconds after
the first — are all granted; the 11th is not rejected, because the sweep
run on every request had already deleted the earlier tokens (older than
300 seconds) before the rate-limit count. -/
theorem eleventh_issuance_within_3600s_not_rejected :
    (3500 : ℤ) - 0 < 3600 ∧
    spacedTrace =
      [.issued "t0", .issued "t1", .issued "t2", .issued "t3",
       .issued "t4", .issued "t5", .issued "t6", .issued "t7",
       .issued "t8", .issued "t9", .issued "t10"] := by
  decide

/-- Claim C1, amended: issuance is rejected with the rate-limit error
exactly when, after the opportunistic sweep of tokens older than 300
seconds, the client still holds at least 10 stored tokens issued within
the trailing 3600 seconds — and every token surviving the sweep is at
most 300 seconds old, so the effective window is 300 seconds: eleven
issuances in rapid succession see the first 10 granted and the 11th
rejected. -/
theorem rate_limit_exactly_at_ten_live_tokens (now : ℤ) (ip tok : String)
    (s : ServerState) :
    ((request_token now ip tok s).1 = .rateLimited ↔
      10 ≤ ((cleanup_expired_tokens now s.tokens_db).filter
        (fun p => p.2.ip = ip ∧ now - p.2.created_at < 3600)).length) ∧
    (∀ p ∈ (cleanup_expired_tokens now s.tokens_db).filter
        (fun p => p.2.ip = ip ∧ now - p.2.created_at < 3600),
      now - p.2.created_at ≤ 300) ∧
    rapidTrace =
      [.issued "t0", .issued "t1", .issued "t2", .issued "t3",
       .issued "t4", .issued "t5", .issued "t6", .issued "t7",
       .issued "t8", .issued "t9", .rateLimited] := by
  refine ⟨?_, ?_, by decide⟩
  · simp only [request_token]
    split
    · rename_i h
      exact ⟨fun _ => h, fun _ => rfl⟩
    · rename_i h
      exact ⟨fun hc => TokenResponse.noConfusion hc,
        fun hlen => absurd hlen h⟩
  · intro p hp
    have hp1 := List.mem_of_mem_filter hp
    unfold cleanup_expired_tokens at hp1
    have hp2 := List.of_mem_filter hp1
    simp only [decide_eq_true_eq] at hp2
    omega

theorem rate_limit_exactly_at_ten_live_tokens_witness :
    (request_token 1 "c" "t"
      ⟨[("a0", ⟨0, false, "c"⟩), ("a1", ⟨0, false, "c"⟩),
        ("a2", ⟨0, false, "c"⟩), ("a3", ⟨0, false, "c"⟩),
        ("a4", ⟨0, false, "c"⟩), ("a5", ⟨0, false, "c"⟩),
        ("a6", ⟨0, false, "c"⟩), ("a7", ⟨0, false, "c"⟩),
        ("a8", ⟨0, false, "c"⟩), ("a9", ⟨0, false, "c"⟩)], []⟩).1 =
      .rateLimited :=
  (rate_limit_exactly_at_ten_live_tokens 1 "c" "t"
    ⟨[("a0", ⟨0, false, "c"⟩), ("a1", ⟨0, false, "c"⟩),
      ("a2", ⟨0, false, "c"⟩), ("a3", ⟨0, false, "c"⟩),
      ("a4", ⟨0, false, "c"⟩), ("a5", ⟨0, false, "c"⟩),
      ("a6", ⟨0, false, "c"⟩), ("a7", ⟨0, false, "c"⟩),
      ("a8", ⟨0, false, "c"⟩), ("a9", ⟨0, false, "c"⟩)], []⟩).1.mpr
    (by decide)

/-! ## Job retention window (claim C2) -/

/-- Claim C2 counterexample: the job `job1` was created at time 0, and at
time 7201 — more than 2 hours later — looking it up with the valid token
`tokB` still succeeds, because `download_file` checks no timestamp and
no sweep has run since the job aged past its window. -/
theorem expired_job_still_retrievable :
    dbLookup lateLookupState.downloads_db "job1" =
      some ⟨some "B/download/f.mp4", none, "disp.mp4", "title", 0, false⟩ ∧
    (7201 : ℤ) - 0 > 7200 ∧
    (download_file 7201 (some "tokB") "job1" lateLookupState).1 =
      .ok "B/download/f.mp4" "disp.mp4" := by
  decide

/-- Claim C2, amended: the sweep run on token issuance deletes every
registry entry older than 2 hours, and a lookup of a swept job returns
the not-found error regardless of its terminal state; but `download_file`
itself checks no timestamp, so the eviction takes effect only from the
first sweep after the window elapses (the counterexample shows a job
still retrievable 7201 seconds after creation). -/
theorem job_gone_after_posteviction_sweep (now later : ℤ)
    (ddb : DownloadsDb) (id : String) (tokens : TokensDb)
    (token : Option String)
    (hexp : ∀ p ∈ ddb, p.1 = id → now - p.2.timestamp > 7200)
    (hval : (validate_token later tokens token).1 = true) :
    dbLookup (cleanup_old_downloads now ddb) id = none ∧
    (download_file later token id
      ⟨tokens, cleanup_old_downloads now ddb⟩).1 =
      .notFound "Download not found" := by
  obtain ⟨heq, -⟩ := validate_token_eq_true hval
  have hnone : dbLookup (cleanup_old_downloads now ddb) id = none := by
    apply dbLookup_eq_none
    intro p hp hpk
    have hp1 := List.mem_of_mem_filter hp
    have hp2 := List.of_mem_filter hp
    simp only [decide_eq_true_eq] at hp2
    exact hp2 (hexp p hp1 hpk)
  refine ⟨hnone, ?_⟩
  simp only [download_file, heq, hnone]

theorem job_gone_after_posteviction_sweep_witness :
    dbLookup (cleanup_old_downloads 7300
      [("job1", ⟨some "u", none, "d", "t", 0, false⟩)]) "job1" = none ∧
    (download_file 7301 (some "tk") "job1"
      ⟨[("tk", ⟨7299, false, "c"⟩)],
       cleanup_old_downloads 7300
         [("job1", ⟨some "u", none, "d", "t", 0, false⟩)]⟩).1 =
      .notFound "Download not found" := by
  exact job_gone_after_posteviction_sweep 7300 7301
    [("job1", ⟨some "u", none, "d", "t", 0, false⟩)] "job1"
    [("tk", ⟨7299, false, "c"⟩)] (some "tk")
    (by
      intro p hp hpk
      rcases List.mem_singleton.1 hp with rfl
      decide)
    (by decide)

/-! ## Upload dedup and versioning (claims C5, C6) -/

theorem chooseName_no_match (all : Contents) (fs n : Nat) (cur : String)
    (l : Contents) (h : ∀ o ∈ l, o.1 ≠ cur) :
    chooseName all fs n l cur = (cur, false) := by
  induction l with
  | nil => rfl
  | cons o rest ih =>
    have ho : o.1 ≠ cur := h o (List.mem_cons_self _ _)
    simp only [chooseName, ho, if_false, if_neg]
    exact ih (fun o2 ho2 => h o2 (List.mem_cons_of_mem _ ho2))

theorem chooseName_append (all : Contents) (fs n : Nat) (cur : String)
    (l l2 : Contents) (h : ∀ o ∈ l, o.1 ≠ cur) :
    chooseName all fs n (l ++ l2) cur = chooseName all fs n l2 cur := by
  induction l with
  | nil => rfl
  | cons o rest ih =>
    have ho : o.1 ≠ cur := h o (List.mem_cons_self _ _)
    simp only [List.cons_append, chooseName, ho, if_false, if_neg]
    exact ih (fun o2 ho2 => h o2 (List.mem_cons_of_mem _ ho2))

/-- Claim C5 counterexample: a stored object `f.mp4` of 10000 bytes and
a local file of 9900 bytes.  The local size is within 1% of the STORED
size (100 · |10000 − 9900| = 10000 ≤ 10000), yet the upload is not
treated as a duplicate: the code measures the difference against 1% of
the LOCAL size (10000 > 9900) and stores under the versioned name
`f_v1.mp4` with a different retrieval URL. -/
theorem within_one_percent_of_stored_not_deduped :
    sanitize "f.mp4" = "f.mp4" ∧
    100 * ((10000 : ℤ) - 9900).natAbs ≤ 10000 ∧
    upload_to_r2_direct "B" [("f.mp4", 10000)] 9900 "f.mp4" 999 =
      ⟨mkUrl "B" "f_v1.mp4", "f_v1.mp4", false⟩ := by
  decide

/-- Claim C5, amended: the dedup tolerance is 1% of the LOCAL size (the
code compares |stored − local| against `local / 100`), not of the stored
size.  With that reading the upload is idempotent: an upload whose
sanitized name is not yet stored transfers under exactly that name, and
a second upload of the same name whose local size is within 1% of the
stored size in that sense is skipped as a duplicate, returning the first
upload retrieval URL with no second physical transfer. -/
theorem upload_dedup_idempotent (pubBase name : String)
    (contents : Contents) (fileSize fileSize2 n1 n2 : Nat)
    (hfresh : ∀ o ∈ contents, o.1 ≠ sanitize name)
    (hsize : 100 * ((fileSize : ℤ) - fileSize2).natAbs ≤ fileSize2) :
    (upload_to_r2_direct pubBase contents fileSize name n1).duplicate =
        false ∧
    (upload_to_r2_direct pubBase contents fileSize name n1).filename =
        sanitize name ∧
    upload_to_r2_direct pubBase
        (contents ++ [(sanitize name, fileSize)]) fileSize2 name n2 =
      ⟨mkUrl pubBase (sanitize name), sanitize name, true⟩ := by
  have h1 := chooseName_no_match contents fileSize n1 (sanitize name)
    contents hfresh
  have h2 := chooseName_append
    (contents ++ [(sanitize name, fileSize)]) fileSize2 n2 (sanitize name)
    contents [(sanitize name, fileSize)] hfresh
  refine ⟨?_, ?_, ?_⟩
  · simp only [upload_to_r2_direct, h1]
  · simp only [upload_to_r2_direct, h1]
  · simp only [upload_to_r2_direct, h2, chooseName, if_pos, hsize,
      if_true]

theorem upload_dedup_idempotent_witness :
    (upload_to_r2_direct "B" [("g.mp4", 500)] 1000 "f.mp4" 11).duplicate =
        false ∧
    (upload_to_r2_direct "B" [("g.mp4", 500)] 1000 "f.mp4" 11).filename =
        sanitize "f.mp4" ∧
    upload_to_r2_direct "B"
        ([("g.mp4", 500)] ++ [(sanitize "f.mp4", 1000)]) 1005 "f.mp4" 12 =
      ⟨mkUrl "B" (sanitize "f.mp4"), sanitize "f.mp4", true⟩ :=
  upload_dedup_idempotent "B" "f.mp4" [("g.mp4", 500)] 1000 1005 11 12
    (by
      intro o ho
      rcases List.mem_singleton.1 ho with rfl
      decide)
    (by decide)

theorem versionLoop_fuel_irrelevant (contents : Contents)
    (base ext : String) (nowInt : Nat) :
    ∀ fuel fuel2 version, version ≤ 10 → 11 ≤ version + fuel →
      11 ≤ version + fuel2 →
      versionLoop contents base ext nowInt version fuel =
        versionLoop contents base ext nowInt version fuel2 := by
  intro fuel
  induction fuel with
  | zero =>
    intro fuel2 version h1 h2 h3
    omega
  | succ f ih =>
    intro fuel2 version h1 h2 h3
    cases fuel2 with
    | zero => omega
    | succ f2 =>
      simp only [versionLoop]
      cases hany : contents.any
          (fun o => o.1 = base ++ "_v" ++ toString version ++ ext) with
      | false => simp only [hany, Bool.false_eq_true, if_false]
      | true =>
        simp only [hany, if_true]
        by_cases hcap : version + 1 > 10
        · simp only [hcap, if_true]
        · simp only [hcap, if_false]
          exact ih f2 (version + 1) (by omega) (by omega) (by omega)

theorem versionLoop_fresh_or_fallback (contents : Contents)
    (base ext : String) (nowInt : Nat) (fuel : Nat) :
    ∀ version,
      (∀ o ∈ contents,
        o.1 ≠ versionLoop contents base ext nowInt version fuel) ∨
      versionLoop contents base ext nowInt version fuel =
        base ++ "_" ++ toString nowInt ++ ext := by
  induction fuel with
  | zero =>
    intro version
    exact Or.inr rfl
  | succ f ih =>
    intro version
    simp only [versionLoop]
    cases hany : contents.any
        (fun o => o.1 = base ++ "_v" ++ toString version ++ ext) with
    | false =>
      simp only [hany, Bool.false_eq_true, if_false]
      left
      intro o ho heq
      have h2 := List.any_eq_false.1 hany o ho
      simp only [decide_eq_true_eq] at h2
      exact h2 heq
    | true =>
      simp only [hany, if_true]
      by_cases hcap : version + 1 > 10
      · simp only [hcap, if_true]
        exact Or.inr trivial
      · simp only [hcap, if_false]
        exact ih (version + 1)

/-- Claim C6: when the candidate name collides with a stored object
whose size differs by more than 1%, the coordinator takes versioned
names `<base>_vN<ext>` for N counting up from 1 and skipping names
already stored: with the base object and versions `_v1.._vn` present
(`n < 10`) the new upload is stored as `_v(n+1)`; with `_v1.._v10` all
present, the next collision takes the time-suffixed fallback name; a
stored `_v3` with `_v2` free does not stop `_v2` being chosen; and in
general the naming step terminates with a name either absent from the
listing or equal to the time-suffixed fallback. -/
theorem versioned_names_cap_then_timestamp :
    (∀ n, n < 10 →
      upload_to_r2_direct "B" (versionedContents n) 5000 "f.mp4" 777 =
        ⟨mkUrl "B" ("f_v" ++ toString (n + 1) ++ ".mp4"),
         "f_v" ++ toString (n + 1) ++ ".mp4", false⟩) ∧
    upload_to_r2_direct "B" (versionedContents 10) 5000 "f.mp4" 777 =
      ⟨mkUrl "B" "f_777.mp4", "f_777.mp4", false⟩ ∧
    (upload_to_r2_direct "B"
      [("f.mp4", 1000), ("f_v1.mp4", 2000), ("f_v3.mp4", 2000)]
      5000 "f.mp4" 777).filename = "f_v2.mp4" ∧
    (∀ contents base ext nowInt,
      (∀ o ∈ contents,
        o.1 ≠ versionStart contents base ext nowInt) ∨
      versionStart contents base ext nowInt =
        base ++ "_" ++ toString nowInt ++ ext) := by
  refine ⟨by decide, by decide, by decide, ?_⟩
  intro contents base ext nowInt
  exact versionLoop_fresh_or_fallback contents base ext nowInt 10 1

theorem versioned_names_cap_then_timestamp_witness :
    upload_to_r2_direct "B" (versionedContents 3) 5000 "f.mp4" 777 =
      ⟨mkUrl "B" "f_v4.mp4", "f_v4.mp4", false⟩ := by
  have h := versioned_names_cap_then_timestamp.1 3 (by decide)
  exact h.trans (by decide)

/-! ## Upload progress throttling (claim C8) -/

theorem pcRun_append (fs : ℚ) (sid : Option String) (s : PCState)
    (l1 l2 : List (ℚ × ℚ)) :
    pcRun fs sid s (l1 ++ l2) =
      pcRun fs sid s l1 ++ pcRun fs sid (pcStateAfter fs sid s l1) l2 := by
  induction l1 generalizing s with
  | nil => rfl
  | cons c rest ih =>
    simp only [List.cons_append, pcRun, pcStateAfter, List.cons.injEq,
      true_and]
    exact ih _

theorem pcStateAfter_eq_emitRefState (fs : ℚ) (sid : String) (s : PCState)
    (calls : List (ℚ × ℚ)) (hsid : sid ≠ "") :
    pcStateAfter fs (some sid) s calls =
      emitRefState fs s (pcRun fs (some sid) s calls) calls := by
  induction calls generalizing s with
  | nil => rfl
  | cons c rest ih =>
    simp only [pcRun, pcStateAfter, emitRefState]
    cases hpc : progress_callback fs (some sid) s c.1 c.2 with
    | mk e s2 =>
      have hs2 : (if e = true then (⟨c.2, c.1 / fs * 100⟩ : PCState)
          else s) = s2 := by
        unfold progress_callback at hpc
        split at hpc
        · injection hpc with he hs
          rw [← he, ← hs]
          simp [isFalsy, hsid]
        · injection hpc with he hs
          rw [← he, ← hs]
          simp
      simp only [hpc, hs2]
      exact ih _

/-- Claim C8: during an upload transfer with a session id present (so
the sink is the `upload_progress` emission), `progress_callback` invokes
the sink exactly when the percentage has advanced by at least one point
OR at least one second has elapsed since the last emission: the state
each call is throttled against is precisely the time and percentage of
the most recent sink-invoking call (the initial cells before any). -/
theorem progress_sink_throttling (fs : ℚ) (sid : String) (s : PCState)
    (pre : List (ℚ × ℚ)) (b t : ℚ) (hsid : sid ≠ "") :
    pcRun fs (some sid) s (pre ++ [(b, t)]) =
      pcRun fs (some sid) s pre ++
        [pcCond fs (emitRefState fs s (pcRun fs (some sid) s pre) pre)
          b t] := by
  rw [pcRun_append]
  congr 1
  rw [← pcStateAfter_eq_emitRefState fs sid s pre hsid]
  simp only [pcRun, progress_callback]
  by_cases h : pcCond fs (pcStateAfter fs (some sid) s pre) b t
  · simp [h, isFalsy, hsid]
  · simp [h]

theorem progress_sink_throttling_witness :
    pcRun 100 (some "sess") ⟨0, 0⟩ ([(50, 1)] ++ [(60, 2)]) =
      pcRun 100 (some "sess") ⟨0, 0⟩ [(50, 1)] ++
        [pcCond 100
          (emitRefState 100 ⟨0, 0⟩
            (pcRun 100 (some "sess") ⟨0, 0⟩ [(50, 1)]) [(50, 1)]) 60 2] :=
  progress_sink_throttling 100 "sess" ⟨0, 0⟩ [(50, 1)] 60 2 (by decide)

end YTDown
